import Mathlib

/-!
Verification development for the sandoc HWP/HWPX document codec.

The definitions below are a shallow embedding of `src/sandoc/parser.py`
and `src/sandoc/hwpx_engine.py`:

* Python `bytes` become `List Nat` (each element a byte value `< 256`);
* Python `str` values that originate from raw UTF-16 decoding (which may
  hold arbitrary 16-bit units, including lone surrogates) become
  `List Nat` of code points; configuration strings become `String`;
* the unbounded `while` loops of the source become fuel-indexed
  structural recursions, with the fuel chosen large enough that it is
  never exhausted (each loop iteration consumes a positive number of
  input bytes);
* fallible operations become `Option`/`Except`.
-/

namespace Sandoc

/-- `ParaText` models a Python `str` produced by UTF-16 decoding: a list of
code points (a lone surrogate is representable, as in CPython). -/
abbrev ParaText := List Nat

/-- Little-endian 16-bit read of the first two bytes of a buffer
(`struct.unpack_from("<H", data, i)`; callers guard the length). -/
def le16 (l : List Nat) : Nat :=
  l.getD 0 0 + 256 * l.getD 1 0

/-- Little-endian 32-bit read of the first four bytes of a buffer
(`struct.unpack_from("<I", data, pos)`; callers guard the length). -/
def le32 (l : List Nat) : Nat :=
  l.getD 0 0 + 256 * l.getD 1 0 + 65536 * l.getD 2 0 + 16777216 * l.getD 3 0

/-- Little-endian 32-bit read at a byte offset. -/
def le32At (l : List Nat) (off : Nat) : Nat :=
  le32 (l.drop off)

/-- The four little-endian bytes of a 32-bit word (used to build test
buffers and the record-encoding side of the round-trip claim). -/
def le32Bytes (n : Nat) : List Nat :=
  [n % 256, n / 256 % 256, n / 65536 % 256, n / 16777216 % 256]

/-- `HwpRecord` from `parser.py`: one HWP 5.x TLV record. -/
structure HwpRecord where
  tag_id : Nat
  level : Nat
  size : Nat
  data : List Nat
  offset : Nat := 0
deriving DecidableEq, Repr

/-- Fuel-indexed embedding of the `while` loop of `_parse_records`
(`parser.py`). `pos` is the absolute cursor (used only for the `offset`
field of the produced records); the third argument is the not-yet-consumed
suffix of the buffer. Each iteration consumes at least 4 bytes, so any
fuel exceeding the buffer length makes the fuel case unreachable. -/
def parseRecordsAux : Nat → Nat → List Nat → List HwpRecord
  | 0, _, _ => []
  | fuel + 1, pos, data =>
    if data.length < 4 then []
    else
      let header := le32 data
      let tag := header % 1024
      let lvl := header / 1024 % 1024
      let size0 := header / 1048576 % 4096
      if size0 = 4095 then
        if (data.drop 4).length < 4 then []
        else
          let size := le32 (data.drop 4)
          let rest := data.drop 8
          if rest.length < size then
            [⟨tag, lvl, rest.length, rest, pos + 8⟩]
          else
            ⟨tag, lvl, size, rest.take size, pos + 8⟩ ::
              parseRecordsAux fuel (pos + 8 + size) (rest.drop size)
      else
        let rest := data.drop 4
        if rest.length < size0 then
          [⟨tag, lvl, rest.length, rest, pos + 4⟩]
        else
          ⟨tag, lvl, size0, rest.take size0, pos + 4⟩ ::
            parseRecordsAux fuel (pos + 4 + size0) (rest.drop size0)

/-- `_parse_records` from `parser.py`. -/
def parseRecords (data : List Nat) : List HwpRecord :=
  parseRecordsAux (data.length + 1) 0 data

/-- Fuel-indexed embedding of the `while` loop of `_decode_para_text`
(`parser.py`). Each iteration consumes at least 2 bytes. The nested
`if code == 0x0009` branch of the source is kept verbatim even though it
is unreachable (its guard contradicts the enclosing condition). -/
def decodeParaTextAux : Nat → List Nat → ParaText
  | 0, _ => []
  | fuel + 1, data =>
    match data with
    | b0 :: b1 :: rest =>
      let code := b0 + 256 * b1
      if 1 ≤ code ∧ code ≤ 8 then
        decodeParaTextAux fuel (rest.drop 14)
      else if code = 10 then
        10 :: decodeParaTextAux fuel rest
      else if code = 13 then
        decodeParaTextAux fuel rest
      else if code < 32 ∧ ¬(code = 9 ∨ code = 10 ∨ code = 13) then
        if code = 9 then 9 :: decodeParaTextAux fuel rest
        else decodeParaTextAux fuel rest
      else
        code :: decodeParaTextAux fuel rest
    | _ => []

/-- `_decode_para_text` from `parser.py`. -/
def decodeParaText (data : List Nat) : ParaText :=
  decodeParaTextAux data.length data

/-- Modelled from the spec (claim wording): the paragraph-text decoding
procedure exactly as the specification describes it — code units
0x0001–0x0008 skip themselves plus 14 bytes, 0x000A is a literal newline,
0x000D is dropped, 0x0009 is a literal tab, any other unit below 0x0020 is
dropped, everything else is appended. Used only to compare with
`decodeParaText`. -/
def decodeParaTextSpecAux : Nat → List Nat → ParaText
  | 0, _ => []
  | fuel + 1, data =>
    match data with
    | b0 :: b1 :: rest =>
      let code := b0 + 256 * b1
      if 1 ≤ code ∧ code ≤ 8 then
        decodeParaTextSpecAux fuel (rest.drop 14)
      else if code = 10 then
        10 :: decodeParaTextSpecAux fuel rest
      else if code = 13 then
        decodeParaTextSpecAux fuel rest
      else if code = 9 then
        9 :: decodeParaTextSpecAux fuel rest
      else if code < 32 then
        decodeParaTextSpecAux fuel rest
      else
        code :: decodeParaTextSpecAux fuel rest
    | _ => []

/-- Top level of the spec-worded decoder. -/
def decodeParaTextSpec (data : List Nat) : ParaText :=
  decodeParaTextSpecAux data.length data

/-- Encoding of one record per the round-trip claim: a little-endian
32-bit header word with `tagId` in bits 0–9, `level` in bits 10–19 and
`size` in bits 20–31, using the 0xFFF escape followed by a 32-bit
little-endian size whenever the size does not fit below 0xFFF. -/
def encodeRecordEntry (tag lvl size : Nat) (data : List Nat) : List Nat :=
  if size < 4095 then
    le32Bytes (tag + 1024 * lvl + 1048576 * size) ++ data
  else
    le32Bytes (tag + 1024 * lvl + 1048576 * 4095) ++ le32Bytes size ++ data

/-- Concatenation of record encodings (the buffer of the round-trip
claim). -/
def encodeRecords : List (Nat × Nat × Nat × List Nat) → List Nat
  | [] => []
  | (t, l, s, d) :: rs => encodeRecordEntry t l s d ++ encodeRecords rs

/-- `HwpTable` from `parser.py`. -/
structure HwpTable where
  rows : Nat
  cols : Nat
  cells : List (List ParaText) := []
  table_index : Nat := 0
deriving DecidableEq, Repr

/-- `_finalize_table` from `parser.py`, returning the rebuilt cell grid
(the source assigns it to `table.cells`). -/
def finalizeTableCells (rows cols : Nat) (cellTexts : List ParaText) :
    List (List ParaText) :=
  if rows = 0 ∨ cols = 0 then [cellTexts]
  else
    (List.range rows).map fun r =>
      (List.range cols).map fun c => cellTexts.getD (r * cols + c) []

/-- `_finalize_table` applied to a table value. -/
def finalizeTable (t : HwpTable) (cellTexts : List ParaText) : HwpTable :=
  { t with cells := finalizeTableCells t.rows t.cols cellTexts }

-- ── Record tag constants (parser.py) ─────────────────────────────

def HWPTAG_PARA_TEXT : Nat := 67
def HWPTAG_SEC_DEF : Nat := 73
def HWPTAG_TABLE : Nat := 75
def HWPTAG_FACE_NAME : Nat := 19
def HWPTAG_CHAR_SHAPE : Nat := 21
def HWPTAG_STYLE : Nat := 26

-- ── Parsed-document data model (parser.py dataclasses) ───────────

/-- `HwpParagraph` from `parser.py`. -/
structure HwpParagraph where
  text : ParaText
  char_shape_ids : List Nat := []
  style_id : Nat := 0
  level : Nat := 0
deriving DecidableEq, Repr

/-- `HwpPageLayout` from `parser.py`. The Python `float` millimetre
values are modelled as exact rationals; Python `round(x, 1)` is modelled
by `round1` below (round half up instead of the bankers rounding CPython
applies to binary floats — the two differ only at exact ties). -/
structure HwpPageLayout where
  paper_width_mm : ℚ := 210
  paper_height_mm : ℚ := 297
  margin_top_mm : ℚ := 10
  margin_bottom_mm : ℚ := 15
  margin_left_mm : ℚ := 20
  margin_right_mm : ℚ := 20
  margin_header_mm : ℚ := 15
  margin_footer_mm : ℚ := 10
  margin_gutter_mm : ℚ := 0
deriving DecidableEq, Repr

/-- `HwpFontInfo` from `parser.py` (the name is a decoded UTF-16 string,
kept as code points). -/
structure HwpFontInfo where
  name : ParaText
  script_type : String := ""
deriving DecidableEq, Repr

/-- `HwpCharShape` from `parser.py`. -/
structure HwpCharShape where
  font_ids : List Nat := []
  font_size_pt : ℚ := 10
  bold : Bool := false
  italic : Bool := false
  underline : Bool := false
  color_rgb : Nat × Nat × Nat := (0, 0, 0)
deriving DecidableEq, Repr

/-- `HwpParseResult` from `parser.py`. Each style dict `{"name": n}` is
modelled by its name. -/
structure HwpParseResult where
  file_path : String := ""
  version : String := ""
  compressed : Bool := true
  encrypted : Bool := false
  paragraphs : List HwpParagraph := []
  tables : List HwpTable := []
  page_layout : HwpPageLayout := {}
  fonts : List HwpFontInfo := []
  char_shapes : List HwpCharShape := []
  styles : List ParaText := []
  sections : List String := []
deriving DecidableEq, Repr

/-- Python `round(x, 1)` (see `HwpPageLayout` on the tie-breaking). -/
def round1 (x : ℚ) : ℚ := (round (10 * x) : ℤ) / 10

/-- `HWPUNIT_TO_MM = 1 / 7200 * 25.4` from `parser.py`. -/
def HWPUNIT_TO_MM : ℚ := 254 / 72000

/-- `HWPUNIT_TO_PT = 1 / 100` from `parser.py`. -/
def HWPUNIT_TO_PT : ℚ := 1 / 100

/-- `_parse_page_def` from `parser.py`. -/
def parsePageDef (data : List Nat) : HwpPageLayout :=
  if 40 ≤ data.length then
    { paper_width_mm := round1 ((le32At data 0 : ℚ) * HWPUNIT_TO_MM)
      paper_height_mm := round1 ((le32At data 4 : ℚ) * HWPUNIT_TO_MM)
      margin_left_mm := round1 ((le32At data 8 : ℚ) * HWPUNIT_TO_MM)
      margin_right_mm := round1 ((le32At data 12 : ℚ) * HWPUNIT_TO_MM)
      margin_top_mm := round1 ((le32At data 16 : ℚ) * HWPUNIT_TO_MM)
      margin_bottom_mm := round1 ((le32At data 20 : ℚ) * HWPUNIT_TO_MM)
      margin_header_mm := round1 ((le32At data 24 : ℚ) * HWPUNIT_TO_MM)
      margin_footer_mm := round1 ((le32At data 28 : ℚ) * HWPUNIT_TO_MM)
      margin_gutter_mm := round1 ((le32At data 32 : ℚ) * HWPUNIT_TO_MM) }
  else {}

/-- `_parse_table_record` from `parser.py`. -/
def parseTableRecord (data : List Nat) : Nat × Nat :=
  if 8 ≤ data.length then (le16 (data.drop 4), le16 (data.drop 6))
  else (0, 0)

-- ── Body content extraction (_extract_body_content) ──────────────

/-- The loop state of `_extract_body_content`: the result object being
mutated plus the local variables of the loop. -/
structure BodyState where
  result : HwpParseResult
  table_index : Nat
  current_table : Option HwpTable
  cell_texts : List ParaText
  in_table : Bool
deriving Repr

/-- One iteration of the record loop of `_extract_body_content`. -/
def extractBodyStep (st : BodyState) (rec : HwpRecord) : BodyState :=
  if rec.tag_id = HWPTAG_PARA_TEXT then
    let text := decodeParaText rec.data
    if text ≠ [] then
      let st1 := { st with result := { st.result with
        paragraphs := st.result.paragraphs ++ [{ text := text, level := rec.level }] } }
      if st1.in_table ∧ st1.current_table.isSome then
        { st1 with cell_texts := st1.cell_texts ++ [text] }
      else st1
    else st
  else if rec.tag_id = HWPTAG_TABLE then
    let st1 :=
      match st.current_table with
      | some t =>
        { st with
          result := { st.result with
            tables := st.result.tables ++ [finalizeTable t st.cell_texts] },
          cell_texts := [] }
      | none => st
    let rc := parseTableRecord rec.data
    if 0 < rc.1 ∧ 0 < rc.2 then
      { st1 with
        current_table := some ⟨rc.1, rc.2, [], st1.table_index⟩,
        in_table := true,
        table_index := st1.table_index + 1 }
    else
      { st1 with current_table := none, in_table := false }
  else if rec.tag_id = HWPTAG_SEC_DEF then
    { st with result := { st.result with page_layout := parsePageDef rec.data } }
  else st

/-- `_extract_body_content` from `parser.py`. -/
def extractBodyContent (records : List HwpRecord) (result : HwpParseResult) :
    HwpParseResult :=
  let st0 : BodyState :=
    { result := result, table_index := result.tables.length,
      current_table := none, cell_texts := [], in_table := false }
  let st := records.foldl extractBodyStep st0
  match st.current_table with
  | some t =>
    { st.result with tables := st.result.tables ++ [finalizeTable t st.cell_texts] }
  | none => st.result


-- ── DocInfo extraction (parser.py) ───────────────────────────────

/-- Python `bytes.decode("utf-16-le", errors="replace")`, modelled on
byte lists: little-endian 16-bit units; a valid surrogate pair yields one
supplementary code point; a lone surrogate, or a trailing odd byte,
yields U+FFFD. Fuel-indexed (each step consumes at least one byte). -/
def utf16leDecodeAux : Nat → List Nat → ParaText
  | 0, _ => []
  | _ + 1, [] => []
  | _ + 1, [_] => [0xFFFD]
  | fuel + 1, b0 :: b1 :: rest =>
    let u := b0 + 256 * b1
    if 0xD800 ≤ u ∧ u < 0xDC00 then
      match rest with
      | c0 :: c1 :: rest2 =>
        let v := c0 + 256 * c1
        if 0xDC00 ≤ v ∧ v < 0xE000 then
          (0x10000 + (u - 0xD800) * 1024 + (v - 0xDC00)) :: utf16leDecodeAux fuel rest2
        else 0xFFFD :: utf16leDecodeAux fuel rest
      | _ => 0xFFFD :: utf16leDecodeAux fuel rest
    else if 0xDC00 ≤ u ∧ u < 0xE000 then
      0xFFFD :: utf16leDecodeAux fuel rest
    else
      u :: utf16leDecodeAux fuel rest

/-- Top level of the UTF-16LE decoder. -/
def utf16leDecode (data : List Nat) : ParaText :=
  utf16leDecodeAux data.length data

/-- Python `str.rstrip("\x00")` on decoded text. -/
def rstripNull (s : ParaText) : ParaText :=
  (s.reverse.dropWhile (· = 0)).reverse

/-- `_parse_face_name` from `parser.py` (the `except` branch of the
source is unreachable: the decode above never raises). -/
def parseFaceName (data : List Nat) : ParaText :=
  if data.length < 3 then []
  else
    let name_len := le16 (data.drop 1)
    rstripNull (utf16leDecode ((data.drop 3).take (name_len * 2)))

/-- `_parse_char_shape` from `parser.py`. -/
def parseCharShape (data : List Nat) : HwpCharShape :=
  if data.length < 42 then {}
  else
    let cs : HwpCharShape :=
      { font_ids := (List.range 7).map fun i => le16 (data.drop (i * 2)) }
    let cs :=
      if 46 ≤ data.length then
        { cs with font_size_pt := round1 ((le32At data 42 : ℚ) * HWPUNIT_TO_PT) }
      else cs
    let cs :=
      if 50 ≤ data.length then
        { cs with italic := (le32At data 46).testBit 0,
                  bold := (le32At data 46).testBit 1,
                  underline := (le32At data 46).testBit 2 }
      else cs
    if 64 ≤ data.length then
      let color := le32At data 60
      if color ≠ 0xFFFFFFFF then
        { cs with color_rgb := (color % 256, color / 256 % 256, color / 65536 % 256) }
      else cs
    else cs

/-- Index of the first occurrence of two consecutive zero bytes
(Python `data.find(b"\x00\x00")`). -/
def findDoubleNull : List Nat → Option Nat
  | 0 :: 0 :: _ => some 0
  | _ :: rest => (findDoubleNull rest).map (· + 1)
  | [] => none

/-- The STYLE-record name extraction from `_extract_docinfo`
(`parser.py`): cut at the first double-null (shifted by one byte when the
match starts at an even offset, as in the source), decode UTF-16LE,
strip trailing nulls. -/
def parseStyleName (data : List Nat) : ParaText :=
  match findDoubleNull data with
  | some e =>
    let end_pos := e + (if e % 2 = 0 then 1 else 0)
    rstripNull (utf16leDecode (data.take end_pos))
  | none => rstripNull (utf16leDecode data)

/-- One iteration of the record loop of `_extract_docinfo`. -/
def extractDocinfoStep (result : HwpParseResult) (rec : HwpRecord) :
    HwpParseResult :=
  if rec.tag_id = HWPTAG_FACE_NAME then
    let name := parseFaceName rec.data
    if name ≠ [] then { result with fonts := result.fonts ++ [{ name := name }] }
    else result
  else if rec.tag_id = HWPTAG_CHAR_SHAPE then
    { result with char_shapes := result.char_shapes ++ [parseCharShape rec.data] }
  else if rec.tag_id = HWPTAG_STYLE then
    { result with styles := result.styles ++ [parseStyleName rec.data] }
  else result

/-- `_extract_docinfo` from `parser.py`. -/
def extractDocinfo (records : List HwpRecord) (result : HwpParseResult) :
    HwpParseResult :=
  records.foldl extractDocinfoStep result

-- ── File header and the main HWP parse (parser.py) ───────────────

/-- The dictionary returned by `_read_hwp_header`. -/
structure HwpHeader where
  signature : ParaText
  version : String
  compressed : Bool
  encrypted : Bool
deriving DecidableEq, Repr

/-- Python `bytes.decode("ascii", errors="replace")` of one byte. -/
def asciiReplace (b : Nat) : Nat :=
  if b < 128 then b else 0xFFFD

/-- `_read_hwp_header` from `parser.py`, as a function of the bytes of
the `FileHeader` stream. -/
def readHwpHeader (header_data : List Nat) : HwpHeader :=
  { signature := ((header_data.take 32).takeWhile (· ≠ 0)).map asciiReplace
    version :=
      if 36 ≤ header_data.length then
        let v := le32At header_data 32
        toString (v / 16777216 % 256) ++ "." ++ toString (v / 65536 % 256) ++ "." ++
          toString (v / 256 % 256) ++ "." ++ toString (v % 256)
      else "unknown"
    compressed :=
      if 40 ≤ header_data.length then (le32At header_data 36).testBit 0 else true
    encrypted :=
      if 40 ≤ header_data.length then (le32At header_data 36).testBit 1 else false }

/-- The OLE2 container seen by `parse_hwp`: whether the path exists,
whether `olefile.isOleFile` accepts it, and the named streams with their
raw bytes. -/
structure HwpFile where
  path : String
  file_present : Bool
  is_ole_file : Bool
  streams : List (String × List Nat)
deriving DecidableEq, Repr

/-- `ole.openstream(name).read()` / `ole.exists(name)`: first stream with
the given name, if any. -/
def streamLookup (f : HwpFile) (name : String) : Option (List Nat) :=
  (f.streams.find? fun p => p.1 == name).map (·.2)

/-- `_decompress_stream` from `parser.py`. The external zlib raw-deflate
decoder is a parameter; `none` models `zlib.error`, in which case the
source logs a warning and returns the raw bytes. -/
def decompressStream (zlibDec : List Nat → Option (List Nat)) (raw : List Nat)
    (compressed : Bool) : List Nat :=
  if ¬ compressed then raw
  else
    match zlibDec raw with
    | some out => out
    | none => raw

/-- The `while True` BodyText-section loop of `parse_hwp`, fuel-indexed:
it stops at the first missing `BodyText/SectionN` stream, which happens
at an index no larger than the number of streams, so a fuel exceeding
that number is never exhausted. -/
def parseBodySections (zlibDec : List Nat → Option (List Nat)) (f : HwpFile) :
    Nat → Nat → HwpParseResult → HwpParseResult
  | 0, _, result => result
  | fuel + 1, idx, result =>
    let name := "BodyText/Section" ++ toString idx
    match streamLookup f name with
    | none => result
    | some raw =>
      let result := { result with sections := result.sections ++ [name] }
      let body := decompressStream zlibDec raw result.compressed
      let result := extractBodyContent (parseRecords body) result
      parseBodySections zlibDec f fuel (idx + 1) result

/-- `parse_hwp` from `parser.py`. Exceptions become `Except.error` with
the source's message (a missing `FileHeader` stream, which makes
`olefile` itself raise, is also an error). -/
def parseHwp (zlibDec : List Nat → Option (List Nat)) (f : HwpFile) :
    Except String HwpParseResult :=
  if ¬ f.file_present then
    .error ("파일을 찾을 수 없습니다: " ++ f.path)
  else if ¬ f.is_ole_file then
    .error ("OLE2(HWP) 파일이 아닙니다: " ++ f.path)
  else
    match streamLookup f "FileHeader" with
    | none => .error "FileHeader 스트림이 없습니다"
    | some header_data =>
      let header := readHwpHeader header_data
      let result : HwpParseResult :=
        { file_path := f.path, version := header.version,
          compressed := header.compressed, encrypted := header.encrypted }
      if result.encrypted then
        .error ("암호화된 HWP 파일은 지원하지 않습니다: " ++ f.path)
      else
        let result :=
          match streamLookup f "DocInfo" with
          | some raw =>
            extractDocinfo
              (parseRecords (decompressStream zlibDec raw result.compressed)) result
          | none => result
        let result := parseBodySections zlibDec f (f.streams.length + 1) 0 result
        .ok result

-- ── Python string helpers (hwpx_engine.py uses str methods) ──────

/-- `some rest` when the pattern is a prefix of the list, with `rest`
the remainder. -/
def dropPrefixQ : List Char → List Char → Option (List Char)
  | [], cs => some cs
  | _ :: _, [] => none
  | p :: ps, c :: cs => if c = p then dropPrefixQ ps cs else none

/-- Python `str.replace(pat, repl)` (left-to-right, non-overlapping;
callers only use non-empty patterns). Fuel-indexed. -/
def pyReplaceAux : Nat → List Char → List Char → List Char → List Char
  | 0, _, _, cs => cs
  | fuel + 1, pat, repl, cs =>
    match cs with
    | [] => []
    | c :: rest =>
      match dropPrefixQ pat (c :: rest) with
      | some remainder => repl ++ pyReplaceAux fuel pat repl remainder
      | none => c :: pyReplaceAux fuel pat repl rest

/-- Python `str.replace`. -/
def pyReplace (s pat repl : String) : String :=
  ⟨pyReplaceAux s.data.length pat.data repl.data s.data⟩

/-- Python `str.split(sep)` with a non-empty separator. Fuel-indexed;
the accumulator holds the current piece reversed. -/
def pySplitAux : Nat → List Char → List Char → List Char → List (List Char)
  | 0, _, acc, _ => [acc.reverse]
  | fuel + 1, sep, acc, cs =>
    match cs with
    | [] => [acc.reverse]
    | c :: rest =>
      match dropPrefixQ sep (c :: rest) with
      | some remainder => acc.reverse :: pySplitAux fuel sep [] remainder
      | none => pySplitAux fuel sep (c :: acc) rest

/-- Python `str.split(sep)`. -/
def pySplit (s sep : String) : List String :=
  (pySplitAux s.data.length sep.data [] s.data).map fun cs => ⟨cs⟩

/-- The ASCII whitespace Python `str.strip()` removes (the model ignores
the rarer Unicode whitespace, which never occurs in the profile data). -/
def isPySpace (c : Char) : Bool :=
  c = ' ' ∨ c = '\t' ∨ c = '\n' ∨ c = '\r'

/-- Python `str.strip()`. -/
def pyStrip (s : String) : String :=
  ⟨((s.data.dropWhile isPySpace).reverse.dropWhile isPySpace).reverse⟩

/-- Python `str.startswith`. -/
def pyStartsWith (s pre : String) : Bool :=
  (dropPrefixQ pre.data s.data).isSome

/-- Python `str.endswith`. -/
def pyEndsWith (s suf : String) : Bool :=
  (dropPrefixQ suf.data.reverse s.data.reverse).isSome

/-- Digits of a non-negative decimal literal. -/
def parseDigitsAux : List Char → Nat → Option Nat
  | [], acc => some acc
  | c :: cs, acc =>
    if c.isDigit then parseDigitsAux cs (acc * 10 + (c.toNat - 48)) else none

/-- A non-empty all-digit string, as a number. -/
def parseNatDigits : List Char → Option Nat
  | [] => none
  | cs => parseDigitsAux cs 0

/-- Python `float(s)` for the decimal forms the style profiles use
(optional sign, digits, optional fractional part; exponents are not
modelled). The binary `float` is modelled by the exact rational;
`none` models `ValueError`. -/
def parsePyFloat (s : String) : Option ℚ :=
  let t := pyStrip s
  let sgn : ℚ := if t.data.take 1 = ['-'] then -1 else 1
  let body : List Char :=
    if t.data.take 1 = ['-'] ∨ t.data.take 1 = ['+'] then t.data.drop 1 else t.data
  match pySplitAux body.length ['.'] [] body with
  | [ip] => (parseNatDigits ip).map fun n => sgn * (n : ℚ)
  | [ip, fp] =>
    if ip = [] ∧ fp = [] then none
    else
      match (if ip = [] then some 0 else parseNatDigits ip),
            (if fp = [] then some 0 else parseNatDigits fp) with
      | some i, some fr =>
        some (sgn * ((i : ℚ) + (fr : ℚ) / ((10 : ℚ) ^ fp.length)))
      | _, _ => none
  | _ => none

-- ── StyleMirror (hwpx_engine.py) ─────────────────────────────────

/-- One `characterStyles` entry of a style profile (absent JSON keys are
`none`). -/
structure CharStyleJson where
  font : Option String := none
  size : Option String := none
  bold : Option Bool := none
  italic : Option Bool := none
deriving DecidableEq, Repr

/-- One `paragraphStyles` entry of a style profile. -/
structure ParaStyleJson where
  alignment : Option String := none
  lineSpacing : Option Int := none
  lineSpacingUnit : Option String := none
deriving DecidableEq, Repr

/-- One `fonts` entry of a style profile. -/
structure FontJson where
  name : Option String := none
deriving DecidableEq, Repr

/-- The JSON-like profile dictionary a `StyleMirror` wraps; dictionaries
become association lists. -/
structure StyleProfile where
  paperSize : List (String × String) := []
  margins : List (String × String) := []
  characterStyles : List (String × CharStyleJson) := []
  paragraphStyles : List (String × ParaStyleJson) := []
  fonts : List FontJson := []
deriving DecidableEq, Repr

/-- Python `dict.get(k)`. -/
def assocGet? {α : Type} (d : List (String × α)) (k : String) : Option α :=
  (d.find? fun p => p.1 == k).map (·.2)

/-- Python `dict.get(k, dflt)`. -/
def assocGetD {α : Type} (d : List (String × α)) (k : String) (dflt : α) : α :=
  (assocGet? d k).getD dflt

/-- `StyleMirror.get_paper_width_mm` (`none` models the `ValueError`
`float()` would raise on a malformed string). -/
def getPaperWidthMm (p : StyleProfile) : Option ℚ :=
  parsePyFloat (pyReplace (assocGetD p.paperSize "width" "210.0mm") "mm" "")

/-- `StyleMirror.get_paper_height_mm`. -/
def getPaperHeightMm (p : StyleProfile) : Option ℚ :=
  parsePyFloat (pyReplace (assocGetD p.paperSize "height" "297.0mm") "mm" "")

/-- `StyleMirror.get_margin_mm`. -/
def getMarginMm (p : StyleProfile) (side : String) : Option ℚ :=
  parsePyFloat (pyReplace (assocGetD p.margins side "0mm") "mm" "")

/-- `StyleMirror.get_char_style`. -/
def getCharStyle (p : StyleProfile) (name : String) : CharStyleJson :=
  (assocGet? p.characterStyles name).getD
    ((assocGet? p.characterStyles "bodyText").getD {})

/-- `StyleMirror.get_para_style`. -/
def getParaStyle (p : StyleProfile) (name : String) : ParaStyleJson :=
  (assocGet? p.paragraphStyles name).getD
    ((assocGet? p.paragraphStyles "default").getD {})

/-- `StyleMirror.get_font_name`. -/
def getFontName (p : StyleProfile) (name : String) : String :=
  let font := (getCharStyle p name).font.getD "맑은 고딕"
  if font.data.contains '/' then pyStrip ((pySplit font "/").headD "")
  else font

/-- `StyleMirror.get_font_size_pt`. -/
def getFontSizePt (p : StyleProfile) (name : String) : ℚ :=
  let s := (getCharStyle p name).size.getD "10pt"
  let s0 := pyStrip ((pySplit (pyReplace s "pt" "") "-").headD "")
  match parsePyFloat s0 with
  | some v => v
  | none => 10

/-- `StyleMirror.get_line_spacing`. -/
def getLineSpacing (p : StyleProfile) (name : String) : Int :=
  (getParaStyle p name).lineSpacing.getD 160

/-- `StyleMirror.get_alignment`. -/
def getAlignment (p : StyleProfile) (name : String) : String :=
  (getParaStyle p name).alignment.getD "justify"

/-- `StyleMirror.get_font_list`. -/
def getFontList (p : StyleProfile) : List String :=
  let names := p.fonts.foldl
    (fun acc f =>
      let n := f.name.getD ""
      if n ≠ "" ∧ ¬ acc.contains n then acc ++ [n] else acc)
    []
  if names = [] then ["맑은 고딕", "함초롬바탕", "함초롬돋움"] else names

/-- `StyleMirror.default()` from `hwpx_engine.py`, the hard-coded
fallback profile. -/
def defaultStyleProfile : StyleProfile where
  paperSize := [("type", "A4"), ("width", "210.0mm"), ("height", "297.0mm")]
  margins := [("top", "10.0mm"), ("bottom", "15.0mm"), ("left", "20.0mm"),
    ("right", "20.0mm"), ("header", "15.0mm"), ("footer", "10.0mm"),
    ("gutter", "0.0mm")]
  characterStyles :=
    [("bodyText", ⟨some "맑은 고딕", some "10pt", some false, some false⟩),
     ("sectionTitle", ⟨some "HY헤드라인M", some "18pt", some false, some true⟩),
     ("tableHeader", ⟨some "맑은 고딕", some "10pt", some true, some false⟩),
     ("tableCell", ⟨some "맑은 고딕", some "9pt", some false, some false⟩)]
  paragraphStyles :=
    [("default", ⟨some "justify", some 160, some "percent"⟩),
     ("sectionTitle", ⟨some "distribute", some 160, none⟩)]
  fonts := []

-- ── Section geometry written by HwpxBuilder._write_section ───────

/-- `HWPUNIT_PER_MM = 283.46` from `hwpx_engine.py`. -/
def HWPUNIT_PER_MM : ℚ := 28346 / 100

/-- Python `int()` applied to a number: truncation toward zero. -/
def pyInt (x : ℚ) : ℤ :=
  if 0 ≤ x then ⌊x⌋ else ⌈x⌉

/-- The millimetre quantities `_write_section` converts, in emission
order: paper width, paper height, then the seven margins
Top/Bottom/Left/Right/Header/Footer/Gutter. -/
def sectionGeometryMm (p : StyleProfile) : Option (List ℚ) := do
  let w ← getPaperWidthMm p
  let h ← getPaperHeightMm p
  let sides ← (["top", "bottom", "left", "right", "header", "footer",
    "gutter"]).mapM fun side => getMarginMm p side
  pure (w :: h :: sides)

/-- The integers `_write_section` writes for the page-geometry XML
attributes of `Contents/section0.xml`: the source emits
`str(int(mm * HWPUNIT_PER_MM))` for each quantity. -/
def writeSectionGeometry (p : StyleProfile) : Option (List ℤ) := do
  let w ← getPaperWidthMm p
  let h ← getPaperHeightMm p
  let sides ← (["top", "bottom", "left", "right", "header", "footer",
    "gutter"]).mapM fun side => getMarginMm p side
  pure ((w :: h :: sides).map fun v => pyInt (v * HWPUNIT_PER_MM))

-- ── validate_hwpx (hwpx_engine.py) ───────────────────────────────

/-- The input of `validate_hwpx`, abstracted from the filesystem: a
missing path, a file `zipfile` rejects, or a readable ZIP with its entry
names and the decoded, stripped content of its `mimetype` entry. -/
inductive ZipInput where
  | missing : ZipInput
  | badZip : ZipInput
  | zipFile (names : List String) (mimetypeStripped : String) : ZipInput
deriving DecidableEq, Repr

/-- The report dictionary returned by `validate_hwpx`. -/
structure ValidationResult where
  valid : Bool := false
  has_mimetype : Bool := false
  has_manifest : Bool := false
  has_content_hpf : Bool := false
  has_header : Bool := false
  has_sections : Bool := false
  section_count : Nat := 0
  file_count : Nat := 0
  errors : List String := []
deriving DecidableEq, Repr

/-- `validate_hwpx` from `hwpx_engine.py` (the catch-all
`except Exception` branch has no counterpart: the model's inputs only
produce the three cases below). -/
def validateHwpx (path : String) : ZipInput → ValidationResult
  | .missing => { errors := ["파일 없음: " ++ path] }
  | .badZip => { errors := ["유효한 ZIP 파일이 아닙니다"] }
  | .zipFile names mt =>
    let has_mimetype := names.contains "mimetype"
    let has_manifest := names.contains "META-INF/manifest.xml"
    let has_content_hpf := names.contains "Contents/content.hpf"
    let has_header := names.contains "Contents/header.xml"
    let section_files := names.filter fun n =>
      pyStartsWith n "Contents/section" && pyEndsWith n ".xml"
    let has_sections := decide (section_files.length > 0)
    let errors :=
      (if has_mimetype ∧ mt ≠ "application/hwp+zip" then
        ["잘못된 mimetype: " ++ mt] else []) ++
      (if ¬ has_mimetype then ["mimetype 파일 없음"] else []) ++
      (if ¬ has_content_hpf then ["Contents/content.hpf 없음"] else []) ++
      (if ¬ has_sections then ["섹션 파일 없음"] else [])
    { valid := has_mimetype && has_content_hpf && has_sections &&
        (errors.length == 0),
      has_mimetype := has_mimetype,
      has_manifest := has_manifest,
      has_content_hpf := has_content_hpf,
      has_header := has_header,
      has_sections := has_sections,
      section_count := section_files.length,
      file_count := names.length,
      errors := errors }



/-- The invariant maintained by the `_extract_body_content` loop:
paragraph texts and collected cell texts are non-empty, and every table
either was already in the initial result or had its cells built by
finalization from non-empty collected texts. -/
def BodyInv (init : HwpParseResult) (st : BodyState) : Prop :=
  (∀ p ∈ st.result.paragraphs, p.text ≠ []) ∧
  (∀ s ∈ st.cell_texts, s ≠ []) ∧
  (∀ t ∈ st.result.tables, t ∈ init.tables ∨
    ∃ texts, (∀ s ∈ texts, s ≠ []) ∧
      t.cells = finalizeTableCells t.rows t.cols texts)


/-! ## Theorems -/

theorem le32Bytes_length (n : Nat) : (le32Bytes n).length = 4 := rfl

theorem le32_le32Bytes_append (n : Nat) (xs : List Nat) (h : n < 4294967296) :
    le32 (le32Bytes n ++ xs) = n := by
  simp [le32Bytes, le32]; omega

theorem drop_four_le32Bytes_append (n : Nat) (xs : List Nat) :
    (le32Bytes n ++ xs).drop 4 = xs := rfl

theorem parseRecordsAux_nil (fuel pos : Nat) : parseRecordsAux fuel pos [] = [] := by
  cases fuel <;> simp [parseRecordsAux]

theorem parseRecordsAux_step_plain (fuel pos : Nat) (data : List Nat)
    (h4 : ¬ data.length < 4) (hs : ¬ le32 data / 1048576 % 4096 = 4095) :
    parseRecordsAux (fuel + 1) pos data =
      if (data.drop 4).length < le32 data / 1048576 % 4096 then
        [⟨le32 data % 1024, le32 data / 1024 % 1024, (data.drop 4).length, data.drop 4, pos + 4⟩]
      else
        ⟨le32 data % 1024, le32 data / 1024 % 1024, le32 data / 1048576 % 4096,
            (data.drop 4).take (le32 data / 1048576 % 4096), pos + 4⟩ ::
          parseRecordsAux fuel (pos + 4 + le32 data / 1048576 % 4096)
            ((data.drop 4).drop (le32 data / 1048576 % 4096)) := by
  simp only [parseRecordsAux]
  rw [if_neg h4, if_neg hs]

theorem parseRecordsAux_step_ext_short (fuel pos : Nat) (data : List Nat)
    (h4 : ¬ data.length < 4) (hs : le32 data / 1048576 % 4096 = 4095)
    (h8 : (data.drop 4).length < 4) :
    parseRecordsAux (fuel + 1) pos data = [] := by
  simp only [parseRecordsAux]
  rw [if_neg h4, if_pos hs, if_pos h8]

theorem parseRecordsAux_step_ext (fuel pos : Nat) (data : List Nat)
    (h4 : ¬ data.length < 4) (hs : le32 data / 1048576 % 4096 = 4095)
    (h8 : ¬ (data.drop 4).length < 4) :
    parseRecordsAux (fuel + 1) pos data =
      if (data.drop 8).length < le32 (data.drop 4) then
        [⟨le32 data % 1024, le32 data / 1024 % 1024, (data.drop 8).length, data.drop 8, pos + 8⟩]
      else
        ⟨le32 data % 1024, le32 data / 1024 % 1024, le32 (data.drop 4),
            (data.drop 8).take (le32 (data.drop 4)), pos + 8⟩ ::
          parseRecordsAux fuel (pos + 8 + le32 (data.drop 4))
            ((data.drop 8).drop (le32 (data.drop 4))) := by
  simp only [parseRecordsAux]
  rw [if_neg h4, if_pos hs, if_neg h8]

theorem parseRecordsAux_size_eq :
    ∀ (fuel pos : Nat) (data : List Nat) (r : HwpRecord),
      r ∈ parseRecordsAux fuel pos data → r.size = r.data.length := by
  intro fuel
  induction fuel with
  | zero => intro pos data r h; simp [parseRecordsAux] at h
  | succ f ih =>
    intro pos data r h
    by_cases h4 : data.length < 4
    · simp only [parseRecordsAux, if_pos h4] at h; simp at h
    · by_cases hs : le32 data / 1048576 % 4096 = 4095
      · by_cases h8 : (data.drop 4).length < 4
        · rw [parseRecordsAux_step_ext_short f pos data h4 hs h8] at h; simp at h
        · rw [parseRecordsAux_step_ext f pos data h4 hs h8] at h
          by_cases htr : (data.drop 8).length < le32 (data.drop 4)
          · rw [if_pos htr] at h; simp at h; subst h; simp
          · rw [if_neg htr] at h
            rcases List.mem_cons.mp h with h | h
            · subst h; simp [List.length_take]
              simp only [List.length_drop] at htr; omega
            · exact ih _ _ _ h
      · rw [parseRecordsAux_step_plain f pos data h4 hs] at h
        by_cases htr : (data.drop 4).length < le32 data / 1048576 % 4096
        · rw [if_pos htr] at h; simp at h; subst h; simp
        · rw [if_neg htr] at h
          rcases List.mem_cons.mp h with h | h
          · subst h; simp [List.length_take]
            simp only [List.length_drop] at htr; omega
          · exact ih _ _ _ h

theorem decodeParaTextAux_eq_specAux :
    ∀ (fuel : Nat) (data : List Nat),
      decodeParaTextAux fuel data = decodeParaTextSpecAux fuel data := by
  intro fuel
  induction fuel with
  | zero => intro data; rfl
  | succ f ih =>
    intro data
    match data with
    | [] => rfl
    | [b] => rfl
    | b0 :: b1 :: rest =>
      simp only [decodeParaTextAux, decodeParaTextSpecAux]
      split_ifs with h1 h2 h3 h4 h5 h6 h7 <;> simp [ih] <;> omega

theorem decodeParaTextAux_mem :
    ∀ (fuel : Nat) (data : List Nat) (c : Nat),
      c ∈ decodeParaTextAux fuel data → c = 9 ∨ c = 10 ∨ 32 ≤ c := by
  intro fuel
  induction fuel with
  | zero => intro data c h; simp [decodeParaTextAux] at h
  | succ f ih =>
    intro data c h
    match data with
    | [] => simp [decodeParaTextAux] at h
    | [b] => simp [decodeParaTextAux] at h
    | b0 :: b1 :: rest =>
      simp only [decodeParaTextAux] at h
      split_ifs at h with h1 h2 h3 h4 h5
      · exact ih _ _ h
      · rcases List.mem_cons.mp h with h | h
        · omega
        · exact ih _ _ h
      · exact ih _ _ h
      · rcases List.mem_cons.mp h with h | h
        · omega
        · exact ih _ _ h
      · exact ih _ _ h
      · rcases List.mem_cons.mp h with h | h
        · omega
        · exact ih _ _ h

theorem drop_eight_le32Bytes₂ (a b : Nat) (xs : List Nat) :
    (le32Bytes a ++ (le32Bytes b ++ xs)).drop 8 = xs := rfl

theorem parseRecordsAux_encodeRecords :
    ∀ (rs : List (Nat × Nat × Nat × List Nat)) (fuel pos : Nat),
      (∀ e ∈ rs, e.1 < 1024 ∧ e.2.1 < 1024 ∧ e.2.2.1 < 4294967296 ∧
        e.2.2.2.length = e.2.2.1) →
      (encodeRecords rs).length < fuel →
      (parseRecordsAux fuel pos (encodeRecords rs)).map
        (fun r => (r.tag_id, r.level, r.size, r.data)) = rs := by
  intro rs
  induction rs with
  | nil =>
    intro fuel pos _ _
    simp [encodeRecords, parseRecordsAux_nil]
  | cons e rs ih =>
    obtain ⟨t, l, s, d⟩ := e
    intro fuel pos hval hfuel
    obtain ⟨ht, hl, hs32, hd⟩ := hval (t, l, s, d) (List.mem_cons_self _ _)
    dsimp only at ht hl hs32 hd
    have hvtail : ∀ e ∈ rs, e.1 < 1024 ∧ e.2.1 < 1024 ∧ e.2.2.1 < 4294967296 ∧
        e.2.2.2.length = e.2.2.1 := fun e he => hval e (List.mem_cons_of_mem _ he)
    by_cases hcase : s < 4095
    · have henc : encodeRecords ((t, l, s, d) :: rs) =
          le32Bytes (t + 1024 * l + 1048576 * s) ++ (d ++ encodeRecords rs) := by
        simp [encodeRecords, encodeRecordEntry, if_pos hcase, List.append_assoc]
      set w := t + 1024 * l + 1048576 * s with hw
      have hw32 : w < 4294967296 := by omega
      have hlen : (encodeRecords ((t, l, s, d) :: rs)).length =
          4 + (d.length + (encodeRecords rs).length) := by
        rw [henc]; simp [le32Bytes]; omega
      cases fuel with
      | zero => omega
      | succ f =>
        rw [henc]
        have h4 : ¬ (le32Bytes w ++ (d ++ encodeRecords rs)).length < 4 := by
          simp [le32Bytes]
        have hle : le32 (le32Bytes w ++ (d ++ encodeRecords rs)) = w :=
          le32_le32Bytes_append _ _ hw32
        have hsz : w / 1048576 % 4096 = s := by omega
        have hs' : ¬ le32 (le32Bytes w ++ (d ++ encodeRecords rs)) / 1048576 % 4096 = 4095 := by
          rw [hle, hsz]; omega
        rw [parseRecordsAux_step_plain f pos _ h4 hs', hle, hsz,
          drop_four_le32Bytes_append]
        have htr : ¬ (d ++ encodeRecords rs).length < s := by
          simp; omega
        rw [if_neg htr, List.take_left' hd, List.drop_left' hd]
        have htag : w % 1024 = t := by omega
        have hlvl : w / 1024 % 1024 = l := by omega
        simp only [List.map_cons, htag, hlvl]
        rw [ih f (pos + 4 + s) hvtail (by omega)]
    · have henc : encodeRecords ((t, l, s, d) :: rs) =
          le32Bytes (t + 1024 * l + 1048576 * 4095) ++
            (le32Bytes s ++ (d ++ encodeRecords rs)) := by
        simp [encodeRecords, encodeRecordEntry, if_neg hcase, List.append_assoc]
      set w := t + 1024 * l + 1048576 * 4095 with hw
      have hw32 : w < 4294967296 := by omega
      have hlen : (encodeRecords ((t, l, s, d) :: rs)).length =
          8 + (d.length + (encodeRecords rs).length) := by
        rw [henc]; simp [le32Bytes]; omega
      cases fuel with
      | zero => omega
      | succ f =>
        rw [henc]
        have h4 : ¬ (le32Bytes w ++ (le32Bytes s ++ (d ++ encodeRecords rs))).length < 4 := by
          simp [le32Bytes]
        have hle : le32 (le32Bytes w ++ (le32Bytes s ++ (d ++ encodeRecords rs))) = w :=
          le32_le32Bytes_append _ _ hw32
        have hsz : w / 1048576 % 4096 = 4095 := by omega
        have hs' : le32 (le32Bytes w ++ (le32Bytes s ++ (d ++ encodeRecords rs))) / 1048576 % 4096 = 4095 := by
          rw [hle, hsz]
        have h8 : ¬ ((le32Bytes w ++ (le32Bytes s ++ (d ++ encodeRecords rs))).drop 4).length < 4 := by
          rw [drop_four_le32Bytes_append]; simp [le32Bytes]
        rw [parseRecordsAux_step_ext f pos _ h4 hs' h8, hle,
          drop_four_le32Bytes_append, drop_eight_le32Bytes₂,
          le32_le32Bytes_append _ _ hs32]
        have htr : ¬ (d ++ encodeRecords rs).length < s := by
          simp; omega
        rw [if_neg htr, List.take_left' hd, List.drop_left' hd]
        have htag : w % 1024 = t := by omega
        have hlvl : w / 1024 % 1024 = l := by omega
        simp only [List.map_cons, htag, hlvl]
        rw [ih f (pos + 8 + s) hvtail (by omega)]

/-- `getD` of a map over `List.range` at an in-range index. -/
theorem getD_map_range {α : Type} (n i : Nat) (f : Nat → α) (d : α) (h : i < n) :
    ((List.range n).map f).getD i d = f i := by
  rw [List.getD_eq_getElem?_getD, List.getElem?_map, List.getElem?_range h]
  rfl

/-- C1: Record round-trip: encoding any sequence of records (tagId < 2^10,
level < 2^10, 32-bit size, payload of exactly `size` bytes) as a
little-endian 32-bit header word (tagId bits 0-9, level bits 10-19, size
bits 20-31, with the 0xFFF escape and explicit 32-bit size whenever the
size does not fit below 0xFFF) followed by the payload, and decoding the
concatenation with `_parse_records`, reproduces the same sequence of
(tagId, level, size, data) tuples. -/
theorem claim_record_roundtrip (rs : List (Nat × Nat × Nat × List Nat))
    (hval : ∀ e ∈ rs, e.1 < 1024 ∧ e.2.1 < 1024 ∧ e.2.2.1 < 4294967296 ∧
      e.2.2.2.length = e.2.2.1) :
    (parseRecords (encodeRecords rs)).map
      (fun r => (r.tag_id, r.level, r.size, r.data)) = rs :=
  parseRecordsAux_encodeRecords rs _ 0 hval (Nat.lt_succ_self _)

/-- Witness for C1 at a concrete two-record sequence. -/
theorem claim_record_roundtrip_witness :
    (∀ e ∈ ([(67, 0, 2, [9, 9]), (68, 1, 0, [])] : List (Nat × Nat × Nat × List Nat)),
      e.1 < 1024 ∧ e.2.1 < 1024 ∧ e.2.2.1 < 4294967296 ∧ e.2.2.2.length = e.2.2.1) ∧
    (parseRecords (encodeRecords [(67, 0, 2, [9, 9]), (68, 1, 0, [])])).map
      (fun r => (r.tag_id, r.level, r.size, r.data)) =
      [(67, 0, 2, [9, 9]), (68, 1, 0, [])] :=
  ⟨by decide, claim_record_roundtrip _ (by decide)⟩

/-- C2: `_decode_para_text` is total, agrees with the decoding procedure
described by the spec (1-8 skip 14 extra bytes, 0x0A literal newline,
0x0D dropped, 0x09 literal tab, other code units below 0x20 dropped), and
its result never contains a code point in 0x0001-0x0008 nor 0x000D. -/
theorem claim_para_text_decode (data : List Nat) :
    decodeParaText data = decodeParaTextSpec data ∧
    ∀ c ∈ decodeParaText data, ¬(1 ≤ c ∧ c ≤ 8) ∧ c ≠ 13 := by
  constructor
  · exact decodeParaTextAux_eq_specAux data.length data
  · intro c hc
    have := decodeParaTextAux_mem data.length data c hc
    omega

/-- Witness for C2 at a concrete buffer containing a tab. -/
theorem claim_para_text_decode_witness :
    decodeParaText [9, 0, 65, 0] = decodeParaTextSpec [9, 0, 65, 0] ∧
    (¬(1 ≤ 9 ∧ 9 ≤ 8) ∧ 9 ≠ 13) :=
  ⟨(claim_para_text_decode [9, 0, 65, 0]).1,
    (claim_para_text_decode [9, 0, 65, 0]).2 9 (by decide)⟩

/-- C3: `_parse_records` degrades gracefully on truncated buffers: with
fewer than 4 bytes left no record is produced; after an 0xFFF sentinel
with fewer than 4 bytes left no record is produced; a header whose
declared size exceeds the remaining bytes yields one final record holding
exactly the remaining bytes (in both the plain and the extended-size
form), and parsing stops. (The embedding is a total function, so no
exception can be raised.) -/
theorem claim_truncated_records :
    (∀ data : List Nat, data.length < 4 → parseRecords data = []) ∧
    (∀ data : List Nat, 4 ≤ data.length → le32 data / 1048576 % 4096 = 4095 →
      (data.drop 4).length < 4 → parseRecords data = []) ∧
    (∀ data : List Nat, 4 ≤ data.length → le32 data / 1048576 % 4096 ≠ 4095 →
      (data.drop 4).length < le32 data / 1048576 % 4096 →
      parseRecords data =
        [⟨le32 data % 1024, le32 data / 1024 % 1024, (data.drop 4).length,
          data.drop 4, 4⟩]) ∧
    (∀ data : List Nat, 4 ≤ data.length → le32 data / 1048576 % 4096 = 4095 →
      4 ≤ (data.drop 4).length → (data.drop 8).length < le32 (data.drop 4) →
      parseRecords data =
        [⟨le32 data % 1024, le32 data / 1024 % 1024, (data.drop 8).length,
          data.drop 8, 8⟩]) := by
  refine ⟨?_, ?_, ?_, ?_⟩
  · intro data h
    show parseRecordsAux (data.length + 1) 0 data = []
    simp only [parseRecordsAux]
    rw [if_pos h]
  · intro data h1 h2 h3
    exact parseRecordsAux_step_ext_short data.length 0 data (by omega) h2 h3
  · intro data h1 h2 h3
    show parseRecordsAux (data.length + 1) 0 data = _
    rw [parseRecordsAux_step_plain data.length 0 data (by omega) h2, if_pos h3]
  · intro data h1 h2 h3 h4
    show parseRecordsAux (data.length + 1) 0 data = _
    rw [parseRecordsAux_step_ext data.length 0 data (by omega) h2 (by omega), if_pos h4]

/-- Witness for C3: a 6-byte buffer whose header declares 256 payload
bytes; the two remaining bytes become the final record. -/
theorem claim_truncated_records_witness :
    4 ≤ ([67, 0, 0, 16, 1, 2] : List Nat).length ∧
    le32 [67, 0, 0, 16, 1, 2] / 1048576 % 4096 ≠ 4095 ∧
    (([67, 0, 0, 16, 1, 2] : List Nat).drop 4).length <
      le32 [67, 0, 0, 16, 1, 2] / 1048576 % 4096 ∧
    parseRecords [67, 0, 0, 16, 1, 2] = [⟨67, 0, 2, [1, 2], 4⟩] := by
  refine ⟨by decide, by decide, by decide, ?_⟩
  exact (claim_truncated_records.2.2.1 [67, 0, 0, 16, 1, 2] (by decide) (by decide)
    (by decide)).trans (by decide)

/-- C9: every record produced by `_parse_records` satisfies
`size = data.length`, the truncated final record included (its size field
is the number of remaining bytes, not the declared size). -/
theorem claim_record_size_consistent (data : List Nat) (r : HwpRecord)
    (h : r ∈ parseRecords data) : r.size = r.data.length :=
  parseRecordsAux_size_eq _ _ _ _ h

/-- Witness for C9 at a truncated record (declared size 256, actual 2). -/
theorem claim_record_size_consistent_witness :
    (⟨67, 0, 2, [1, 2], 4⟩ : HwpRecord) ∈ parseRecords [67, 0, 0, 16, 1, 2] ∧
    (⟨67, 0, 2, [1, 2], 4⟩ : HwpRecord).size =
      (⟨67, 0, 2, [1, 2], 4⟩ : HwpRecord).data.length :=
  ⟨by decide, claim_record_size_consistent [67, 0, 0, 16, 1, 2] _ (by decide)⟩

/-- C4: table finalization produces a `rows` × `cols` grid, filled
row-major from the collected texts, with every position beyond the
collected texts set to the empty string. -/
theorem claim_table_finalization (rows cols : Nat) (texts : List ParaText)
    (hr : 1 ≤ rows) (hc : 1 ≤ cols) :
    (finalizeTableCells rows cols texts).length = rows ∧
    (∀ row ∈ finalizeTableCells rows cols texts, row.length = cols) ∧
    (∀ r c, r < rows → c < cols →
      ((finalizeTableCells rows cols texts).getD r []).getD c [] =
        texts.getD (r * cols + c) []) := by
  unfold finalizeTableCells
  rw [if_neg (by omega)]
  refine ⟨by simp, ?_, ?_⟩
  · intro row hrow
    simp only [List.mem_map] at hrow
    obtain ⟨r, _, rfl⟩ := hrow
    simp
  · intro r c hrlt hclt
    rw [getD_map_range _ _ _ _ hrlt, getD_map_range _ _ _ _ hclt]

/-- Witness for C4: the 2 x 3 grid from 4 collected texts; the last two
cells are empty. -/
theorem claim_table_finalization_witness :
    1 ≤ 2 ∧ 1 ≤ 3 ∧
    (finalizeTableCells 2 3 [[65], [66], [67], [68]]).length = 2 ∧
    finalizeTableCells 2 3 [[65], [66], [67], [68]] =
      [[[65], [66], [67]], [[68], [], []]] :=
  ⟨by decide, by decide,
    (claim_table_finalization 2 3 _ (by decide) (by decide)).1, by decide⟩


theorem extractBodyStep_inv (init : HwpParseResult) (st : BodyState)
    (rec : HwpRecord) (h : BodyInv init st) :
    BodyInv init (extractBodyStep st rec) := by
  obtain ⟨hp, hc, ht⟩ := h
  by_cases h67 : rec.tag_id = HWPTAG_PARA_TEXT
  · by_cases htext : decodeParaText rec.data ≠ []
    · by_cases hin : st.in_table ∧ st.current_table.isSome
      · simp only [extractBodyStep, if_pos h67, if_pos htext, if_pos hin]
        refine ⟨?_, ?_, ht⟩
        · intro p hp'
          rcases List.mem_append.mp hp' with h' | h'
          · exact hp p h'
          · simp at h'; subst h'; exact htext
        · intro s hs'
          rcases List.mem_append.mp hs' with h' | h'
          · exact hc s h'
          · simp at h'; subst h'; exact htext
      · simp only [extractBodyStep, if_pos h67, if_pos htext, if_neg hin]
        refine ⟨?_, hc, ht⟩
        intro p hp'
        rcases List.mem_append.mp hp' with h' | h'
        · exact hp p h'
        · simp at h'; subst h'; exact htext
    · simp only [extractBodyStep, if_pos h67, if_neg htext]
      exact ⟨hp, hc, ht⟩
  · by_cases h75 : rec.tag_id = HWPTAG_TABLE
    · cases hcur : st.current_table with
      | some t =>
        by_cases hrc : 0 < (parseTableRecord rec.data).1 ∧
            0 < (parseTableRecord rec.data).2
        · simp only [extractBodyStep, if_neg h67, if_pos h75, hcur, if_pos hrc]
          refine ⟨hp, by simp, ?_⟩
          intro t' ht'
          rcases List.mem_append.mp ht' with h' | h'
          · exact ht t' h'
          · simp at h'; subst h'
            exact Or.inr ⟨st.cell_texts, hc, rfl⟩
        · simp only [extractBodyStep, if_neg h67, if_pos h75, hcur, if_neg hrc]
          refine ⟨hp, by simp, ?_⟩
          intro t' ht'
          rcases List.mem_append.mp ht' with h' | h'
          · exact ht t' h'
          · simp at h'; subst h'
            exact Or.inr ⟨st.cell_texts, hc, rfl⟩
      | none =>
        by_cases hrc : 0 < (parseTableRecord rec.data).1 ∧
            0 < (parseTableRecord rec.data).2
        · simp only [extractBodyStep, if_neg h67, if_pos h75, hcur, if_pos hrc]
          exact ⟨hp, hc, ht⟩
        · simp only [extractBodyStep, if_neg h67, if_pos h75, hcur, if_neg hrc]
          exact ⟨hp, hc, ht⟩
    · by_cases h73 : rec.tag_id = HWPTAG_SEC_DEF
      · simp only [extractBodyStep, if_neg h67, if_neg h75, if_pos h73]
        exact ⟨hp, hc, ht⟩
      · simp only [extractBodyStep, if_neg h67, if_neg h75, if_neg h73]
        exact ⟨hp, hc, ht⟩

theorem foldl_extractBodyStep_inv (init : HwpParseResult) :
    ∀ (records : List HwpRecord) (st : BodyState),
      BodyInv init st → BodyInv init (records.foldl extractBodyStep st)
  | [], _, h => h
  | r :: rs, st, h =>
    foldl_extractBodyStep_inv init rs _ (extractBodyStep_inv init st r h)

/-- C10: a PARA_TEXT record whose decoded text is empty contributes no
paragraph and no collected cell text: every paragraph of the extraction
result has non-empty text, and every table added by the extraction was
finalized from non-empty collected texts (so its empty cells can only be
finalization padding). -/
theorem claim_empty_paragraphs_dropped (records : List HwpRecord)
    (result : HwpParseResult)
    (hinit : ∀ p ∈ result.paragraphs, p.text ≠ []) :
    (∀ p ∈ (extractBodyContent records result).paragraphs, p.text ≠ []) ∧
    (∀ t ∈ (extractBodyContent records result).tables,
      t ∈ result.tables ∨ ∃ texts, (∀ s ∈ texts, s ≠ []) ∧
        t.cells = finalizeTableCells t.rows t.cols texts) := by
  have h0 : BodyInv result
      { result := result, table_index := result.tables.length,
        current_table := none, cell_texts := [], in_table := false } :=
    ⟨hinit, by simp, fun t ht => Or.inl ht⟩
  have hfold := foldl_extractBodyStep_inv result records _ h0
  obtain ⟨hp, hc, ht⟩ := hfold
  unfold extractBodyContent
  cases hcur : (records.foldl extractBodyStep
      { result := result, table_index := result.tables.length,
        current_table := none, cell_texts := [], in_table := false }).current_table with
  | none => simp only [hcur]; exact ⟨hp, ht⟩
  | some t =>
    simp only [hcur]
    refine ⟨hp, ?_⟩
    intro t' ht'
    rcases List.mem_append.mp ht' with h' | h'
    · exact ht t' h'
    · simp at h'; subst h'
      exact Or.inr ⟨_, hc, rfl⟩

/-- Witness for C10: a section with one non-empty and one
paragraph-end-only (hence empty) PARA_TEXT record. -/
theorem claim_empty_paragraphs_dropped_witness :
    (∀ p ∈ ({} : HwpParseResult).paragraphs, p.text ≠ []) ∧
    (⟨[65], [], 0, 0⟩ : HwpParagraph).text ≠ [] :=
  ⟨by decide,
    (claim_empty_paragraphs_dropped
      (parseRecords [67, 0, 32, 0, 65, 0, 67, 0, 32, 0, 13, 0]) {}
      (by decide)).1 ⟨[65], [], 0, 0⟩ (by decide)⟩


/-- C6: when the FileHeader flag word at offset 36 has bit 1 set,
`parse_hwp` fails with the encrypted-document error. The statement
quantifies over all stream contents (in particular all BodyText
streams) and all zlib decoders, so the outcome does not depend on any
BodyText data, and the error result carries no paragraphs, tables,
fonts or styles. -/
theorem claim_encrypted_rejected (zlibDec : List Nat → Option (List Nat))
    (f : HwpFile) (hd : List Nat)
    (hpres : f.file_present = true) (hole : f.is_ole_file = true)
    (hstream : streamLookup f "FileHeader" = some hd)
    (hlen : 40 ≤ hd.length)
    (hbit : (le32At hd 36).testBit 1 = true) :
    parseHwp zlibDec f =
      .error ("암호화된 HWP 파일은 지원하지 않습니다: " ++ f.path) := by
  unfold parseHwp
  rw [hpres, hole]
  simp only [hstream, not_true, if_false]
  have henc : (readHwpHeader hd).encrypted = true := by
    simp only [readHwpHeader]
    rw [if_pos hlen]
    exact hbit
  simp [henc]

/-- Witness for C6: a 40-byte FileHeader whose flag word is 2. -/
theorem claim_encrypted_rejected_witness :
    ((⟨"x.hwp", true, true,
        [("FileHeader", List.replicate 36 0 ++ [2, 0, 0, 0])]⟩ : HwpFile).file_present
      = true) ∧
    parseHwp (fun _ => none)
      ⟨"x.hwp", true, true, [("FileHeader", List.replicate 36 0 ++ [2, 0, 0, 0])]⟩ =
      .error ("암호화된 HWP 파일은 지원하지 않습니다: " ++ "x.hwp") :=
  ⟨rfl, claim_encrypted_rejected (fun _ => none)
    ⟨"x.hwp", true, true, [("FileHeader", List.replicate 36 0 ++ [2, 0, 0, 0])]⟩
    (List.replicate 36 0 ++ [2, 0, 0, 0]) rfl rfl (by decide) (by decide)
    (by decide)⟩


/-- A filtered list is non-empty exactly when some element satisfies
the predicate. -/
theorem length_filter_pos_iff {p : String → Bool} {l : List String} :
    0 < (l.filter p).length ↔ ∃ a ∈ l, p a = true := by
  rw [List.length_pos, Ne, List.filter_eq_nil_iff]
  push_neg
  simp

/-- C5: `validate_hwpx` always returns a report (the embedding is total,
mirroring that no exception propagates), and the report's `valid` field
is true exactly when the `mimetype` entry is present, the
`Contents/content.hpf` entry is present, at least one
`Contents/section*.xml` entry is present, and the errors list is empty;
a non-ZIP input yields an invalid report whose errors list is exactly
the not-a-valid-ZIP message, and a missing path also yields an invalid
report. -/
theorem claim_validator_report :
    (∀ (path : String) (names : List String) (mt : String),
      (validateHwpx path (.zipFile names mt)).valid = true ↔
        ("mimetype" ∈ names ∧ "Contents/content.hpf" ∈ names ∧
          (∃ n ∈ names, pyStartsWith n "Contents/section" = true ∧
            pyEndsWith n ".xml" = true) ∧
          (validateHwpx path (.zipFile names mt)).errors = [])) ∧
    (∀ path : String, (validateHwpx path .missing).valid = false ∧
      (validateHwpx path .missing).errors ≠ []) ∧
    (∀ path : String, (validateHwpx path .badZip).valid = false ∧
      (validateHwpx path .badZip).errors = ["유효한 ZIP 파일이 아닙니다"]) := by
  refine ⟨?_, ?_, ?_⟩
  · intro path names mt
    simp only [validateHwpx, Bool.and_eq_true, decide_eq_true_eq, beq_iff_eq,
      List.elem_iff, List.length_eq_zero, length_filter_pos_iff]
    tauto
  · intro path
    exact ⟨rfl, by simp [validateHwpx]⟩
  · intro path
    exact ⟨rfl, rfl⟩


/-- Evaluation of `pyInt` on a non-negative rational from floor bounds. -/
theorem pyInt_eval (x : ℚ) (n : ℤ) (h0 : 0 ≤ x) (h1 : (n : ℚ) ≤ x)
    (h2 : x < n + 1) : pyInt x = n := by
  unfold pyInt
  rw [if_pos h0]
  exact Int.floor_eq_iff.mpr ⟨h1, h2⟩

/-- The geometry integers are the truncated conversions of the geometry
millimetre values (helper shared by the C7 theorems). -/
theorem writeSectionGeometry_of_mm (p : StyleProfile) (vs : List ℚ)
    (h : sectionGeometryMm p = some vs) :
    writeSectionGeometry p =
      some (vs.map fun v => pyInt (v * HWPUNIT_PER_MM)) := by
  revert h
  unfold sectionGeometryMm writeSectionGeometry
  cases getPaperWidthMm p with
  | none => intro h; simp at h
  | some w =>
    cases getPaperHeightMm p with
    | none => intro h; simp at h
    | some hgt =>
      cases List.mapM (fun side => getMarginMm p side)
          ["top", "bottom", "left", "right", "header", "footer", "gutter"] with
      | none => intro h; simp at h
      | some sides =>
        intro h
        simp only [Option.bind_eq_bind, Option.some_bind, Option.pure_def,
          Option.some.injEq] at h
        subst h
        rfl

/-- The default profile's geometry millimetre values. -/
theorem sectionGeometryMm_default_eval :
    sectionGeometryMm defaultStyleProfile =
      some [210, 297, 10, 15, 20, 20, 15, 10, 0] := by
  have h : sectionGeometryMm defaultStyleProfile = some
      [(1 : ℚ) * (((210 : ℕ) : ℚ) + ((0 : ℕ) : ℚ) / 10 ^ 1),
       (1 : ℚ) * (((297 : ℕ) : ℚ) + ((0 : ℕ) : ℚ) / 10 ^ 1),
       (1 : ℚ) * (((10 : ℕ) : ℚ) + ((0 : ℕ) : ℚ) / 10 ^ 1),
       (1 : ℚ) * (((15 : ℕ) : ℚ) + ((0 : ℕ) : ℚ) / 10 ^ 1),
       (1 : ℚ) * (((20 : ℕ) : ℚ) + ((0 : ℕ) : ℚ) / 10 ^ 1),
       (1 : ℚ) * (((20 : ℕ) : ℚ) + ((0 : ℕ) : ℚ) / 10 ^ 1),
       (1 : ℚ) * (((15 : ℕ) : ℚ) + ((0 : ℕ) : ℚ) / 10 ^ 1),
       (1 : ℚ) * (((10 : ℕ) : ℚ) + ((0 : ℕ) : ℚ) / 10 ^ 1),
       (1 : ℚ) * (((0 : ℕ) : ℚ) + ((0 : ℕ) : ℚ) / 10 ^ 1)] := rfl
  rw [h]
  norm_num

/-- C7 counterexample: for the default profile the Width attribute of
`Contents/section0.xml` is `int(210 * 283.46) = 59526`, but the nearest
integer to `210 * 283.46 = 59526.6` is `59527`: the integer written is
not `round(mm * 283.46)`. -/
theorem claim_writer_rounding_counterexample :
    getPaperWidthMm defaultStyleProfile = some 210 ∧
    (writeSectionGeometry defaultStyleProfile).map (fun l => l.getD 0 0) =
      some (pyInt ((210 : ℚ) * HWPUNIT_PER_MM)) ∧
    pyInt ((210 : ℚ) * HWPUNIT_PER_MM) = 59526 ∧
    round ((210 : ℚ) * HWPUNIT_PER_MM) = 59527 := by
  refine ⟨?_, ?_, ?_, ?_⟩
  · have h : getPaperWidthMm defaultStyleProfile =
        some ((1 : ℚ) * (((210 : ℕ) : ℚ) + ((0 : ℕ) : ℚ) / 10 ^ 1)) := rfl
    rw [h]
    norm_num
  · rw [writeSectionGeometry_of_mm defaultStyleProfile _ sectionGeometryMm_default_eval]
    rfl
  · exact pyInt_eval _ _ (by norm_num [HWPUNIT_PER_MM])
      (by norm_num [HWPUNIT_PER_MM]) (by norm_num [HWPUNIT_PER_MM])
  · rw [round_eq]
    exact Int.floor_eq_iff.mpr
      ⟨by norm_num [HWPUNIT_PER_MM], by norm_num [HWPUNIT_PER_MM]⟩

/-- C7 (amended): the integer written for each geometry attribute of
`Contents/section0.xml` is the truncation `int(v * 283.46)` of the
converted value — for the non-negative values the accessors produce,
the floor — and not the nearest integer. -/
theorem claim_writer_unit_conversion (p : StyleProfile) (vs : List ℚ)
    (h : sectionGeometryMm p = some vs) :
    writeSectionGeometry p =
      some (vs.map fun v => pyInt (v * HWPUNIT_PER_MM)) ∧
    ∀ v ∈ vs, 0 ≤ v → pyInt (v * HWPUNIT_PER_MM) = ⌊v * HWPUNIT_PER_MM⌋ := by
  refine ⟨writeSectionGeometry_of_mm p vs h, ?_⟩
  intro v _ hnn
  unfold pyInt
  rw [if_pos (mul_nonneg hnn (by norm_num [HWPUNIT_PER_MM]))]

/-- Witness for C7 (amended) at the default profile. -/
theorem claim_writer_unit_conversion_witness :
    sectionGeometryMm defaultStyleProfile =
      some [210, 297, 10, 15, 20, 20, 15, 10, 0] ∧
    writeSectionGeometry defaultStyleProfile =
      some ([210, 297, 10, 15, 20, 20, 15, 10, 0].map
        fun v => pyInt (v * HWPUNIT_PER_MM)) :=
  ⟨sectionGeometryMm_default_eval,
    (claim_writer_unit_conversion defaultStyleProfile _
      sectionGeometryMm_default_eval).1⟩


/-- C8 counterexample: the default profile's heading character style
(`sectionTitle`) has `bold = False` (it is italic instead), and its font
is `HY헤드라인M` — not a 맑은고딕/함초롬-family name — so the claimed
"18pt bold heading with 맑은고딕/함초롬 font family names" fails on both
counts at the hard-coded default. -/
theorem claim_default_style_counterexample :
    (getCharStyle defaultStyleProfile "sectionTitle").bold = some false ∧
    (getCharStyle defaultStyleProfile "sectionTitle").italic = some true ∧
    getFontName defaultStyleProfile "sectionTitle" = "HY헤드라인M" := by
  refine ⟨by decide, by decide, by decide⟩

/-- C8 (amended): the hard-coded default profile specifies A4 paper
(210.0 mm by 297.0 mm), a 10 pt non-bold body style in 맑은 고딕, an
18 pt heading style that is italic and not bold in the HY헤드라인M font
with distribute paragraph alignment, 160 percent line spacing, and a
font list that falls back to 맑은 고딕/함초롬바탕/함초롬돋움. -/
theorem claim_default_style_profile :
    getPaperWidthMm defaultStyleProfile = some 210 ∧
    getPaperHeightMm defaultStyleProfile = some 297 ∧
    getFontSizePt defaultStyleProfile "bodyText" = 10 ∧
    (getCharStyle defaultStyleProfile "bodyText").bold = some false ∧
    getFontName defaultStyleProfile "bodyText" = "맑은 고딕" ∧
    getFontSizePt defaultStyleProfile "sectionTitle" = 18 ∧
    (getCharStyle defaultStyleProfile "sectionTitle").bold = some false ∧
    (getCharStyle defaultStyleProfile "sectionTitle").italic = some true ∧
    getFontName defaultStyleProfile "sectionTitle" = "HY헤드라인M" ∧
    getAlignment defaultStyleProfile "sectionTitle" = "distribute" ∧
    getLineSpacing defaultStyleProfile "default" = 160 ∧
    getLineSpacing defaultStyleProfile "sectionTitle" = 160 ∧
    getFontList defaultStyleProfile =
      ["맑은 고딕", "함초롬바탕", "함초롬돋움"] := by
  refine ⟨?_, ?_, ?_, by decide, by decide, ?_, by decide, by decide, by decide,
    by decide, by decide, by decide, by decide⟩
  · have h : getPaperWidthMm defaultStyleProfile =
        some ((1 : ℚ) * (((210 : ℕ) : ℚ) + ((0 : ℕ) : ℚ) / 10 ^ 1)) := rfl
    rw [h]; norm_num
  · have h : getPaperHeightMm defaultStyleProfile =
        some ((1 : ℚ) * (((297 : ℕ) : ℚ) + ((0 : ℕ) : ℚ) / 10 ^ 1)) := rfl
    rw [h]; norm_num
  · have h : getFontSizePt defaultStyleProfile "bodyText" =
        (1 : ℚ) * ((10 : ℕ) : ℚ) := rfl
    rw [h]; norm_num
  · have h : getFontSizePt defaultStyleProfile "sectionTitle" =
        (1 : ℚ) * ((18 : ℕ) : ℚ) := rfl
    rw [h]; norm_num


end Sandoc
